import Mathlib

/-!
Verification of the version comparator and idempotent downloader of
`src/openwrt_tools/imagebuilder.py` (tidylabs/action-openwrt-imagebuilder),
shallowly embedded in Lean.

The Python code under scrutiny:

* `compare_version(ver1, ver2)` runs `re.search` with the pattern
  `(?P<year>\d\d)\.(?P<month>0[1-9]|1[0-2])\.(?P<release>0|[1-9]\d*)(?:-rc(?P<candidate>[1-9]\d*))?`
  on each argument and then compares the captured *strings* with Python
  string comparison (`>`), tier by tier (year, month, release, candidate),
  where a missing candidate group (`None`) counts as newest.
* `urldownload(url, path)` opens the URL, reads the `Content-Length` and
  `Last-Modified` headers into integer variables defaulted to the sentinel
  `-1`, skips the transfer when an existing file's size and mtime both equal
  those values, otherwise streams the body to the file, stamps the remote
  mtime on it when one was supplied, and finally raises a
  "download incomplete" `ContentTooShortError` when fewer bytes than the
  declared `Content-Length` arrived.
-/

namespace OpenwrtImagebuilder

/-! ## The regex match of `compare_version` (imagebuilder.py lines 26-29)

`re.search` scans start positions left to right and returns the first
position where the pattern matches; within a position the alternations
`0[1-9]|1[0-2]` and `0|[1-9]\d*` are disjoint on their first character and
`\d*`/`[1-9]\d*` are greedy, with nothing after them that could force
backtracking, so the match at a position is deterministic and captured
groups are maximal digit runs.  `\d` is modelled as an ASCII digit
(the Python pattern would also admit other Unicode decimal digits; no
claim in scope involves those). -/

/-- The four captured groups of one successful pattern match. -/
structure VerMatch where
  year : List Char
  month : List Char
  release : List Char
  candidate : Option (List Char)
deriving DecidableEq, Repr

/-- Maximal run of ASCII digits at the front of the input: the greedy `\d*`. -/
def takeDigits (s : List Char) : List Char := s.takeWhile Char.isDigit

/-- What is left after the greedy `\d*` has consumed its digits. -/
def dropDigits (s : List Char) : List Char := s.dropWhile Char.isDigit

/-- The optional group `(?:-rc(?P<candidate>[1-9]\d*))?`: the candidate
digit string when the remainder starts with `-rc` followed by a nonzero
digit, `none` otherwise. -/
def matchCandidate : List Char → Option (List Char)
  | '-' :: 'r' :: 'c' :: c :: rest =>
      if '1' ≤ c ∧ c ≤ '9' then some (c :: takeDigits rest) else none
  | _ => none

/-- The group `(?P<release>0|[1-9]\d*)`: the release digit string and the
remainder of the input after it, or `none` when the input does not start
with a digit run of that shape. -/
def matchRelease : List Char → Option (List Char × List Char)
  | [] => none
  | c :: rest =>
      if c = '0' then some (['0'], rest)
      else if '1' ≤ c ∧ c ≤ '9' then some (c :: takeDigits rest, dropDigits rest)
      else none

/-- The month alternation `0[1-9]|1[0-2]`. -/
def monthOk (m1 m2 : Char) : Prop :=
  (m1 = '0' ∧ '1' ≤ m2 ∧ m2 ≤ '9') ∨ (m1 = '1' ∧ '0' ≤ m2 ∧ m2 ≤ '2')

instance (m1 m2 : Char) : Decidable (monthOk m1 m2) := by
  unfold monthOk; infer_instance

/-- One attempt to match the whole version pattern anchored at the front of
the input, mirroring the regex structure `\d\d\.MM\.REL(-rcN)?`. -/
def matchAt : List Char → Option VerMatch
  | y1 :: y2 :: '.' :: m1 :: m2 :: '.' :: rest =>
      if y1.isDigit ∧ y2.isDigit ∧ monthOk m1 m2 then
        match matchRelease rest with
        | some (rel, rest2) =>
            some { year := [y1, y2], month := [m1, m2], release := rel,
                   candidate := matchCandidate rest2 }
        | none => none
      else none
  | _ => none

/-- `re.search`: the match at the leftmost start position where the pattern
matches, `none` when the pattern occurs nowhere in the input. -/
def searchVer : List Char → Option VerMatch
  | [] => none
  | c :: rest =>
      match matchAt (c :: rest) with
      | some m => some m
      | none => searchVer rest

/-! ## Python string comparison on the captured groups -/

/-- Python's `<` on strings: lexicographic by code point, a proper prefix
is smaller. -/
def strLt : List Char → List Char → Bool
  | [], [] => false
  | [], _ :: _ => true
  | _ :: _, [] => false
  | a :: as, b :: bs => if a < b then true else if b < a then false else strLt as bs

/-- Python's `>` on strings. -/
def strGt (x y : List Char) : Bool := strLt y x

/-- The candidate-tier condition of line 49,
`candidate1 is None or (candidate2 and candidate1 > candidate2)`:
`None` is newest, otherwise the (truthy, i.e. nonempty) candidate strings
are compared as Python strings. -/
def candGt : Option (List Char) → Option (List Char) → Bool
  | none, _ => true
  | some _, none => false
  | some c1, some c2 => decide (c2 ≠ []) && strGt c1 c2

/-- Lines 31-51 of `compare_version`: successive tiers year, month,
release, candidate, each compared as Python strings, first differing tier
decides. -/
def compareFields (m1 m2 : VerMatch) : Int :=
  if m1.year ≠ m2.year then (if strGt m1.year m2.year then 1 else -1)
  else if m1.month ≠ m2.month then (if strGt m1.month m2.month then 1 else -1)
  else if m1.release ≠ m2.release then (if strGt m1.release m2.release then 1 else -1)
  else if m1.candidate ≠ m2.candidate then (if candGt m1.candidate m2.candidate then 1 else -1)
  else 0

/-- `compare_version(ver1, ver2)`.  `none` models the `AttributeError` the
Python raises on `match.group` when `re.search` found no occurrence of the
pattern in either argument. -/
def compare_version (ver1 ver2 : String) : Option Int :=
  match searchVer ver1.data, searchVer ver2.data with
  | some m1, some m2 => some (compareFields m1 m2)
  | _, _ => none

example : compare_version "24.10.0" "24.10.0-rc1" = some 1 := by decide
example : compare_version "24.10.0-rc2" "24.10.0-rc1" = some 1 := by decide
example : compare_version "23.05.5" "24.10.0-rc1" = some (-1) := by decide
example : compare_version "24.10.10" "24.10.9" = some (-1) := by decide
example : compare_version "24.10.0-rc10" "24.10.0-rc9" = some (-1) := by decide
example : compare_version "abc" "24.10.0" = none := by decide
example : compare_version "v24.10.3-suffix" "24.10.3" = some 0 := by decide

/-! ## Extension selection (imagebuilder.py line 176)

`ext = "tar.zst" if version == "SNAPSHOT" or compare_version("24.10.0-rc1", version) <= 0 else "tar.xz"`
with Python short-circuit `or`: the comparator is not invoked for the
SNAPSHOT sentinel, so SNAPSHOT always takes the newest-format branch. -/

/-- The extension chosen for the Image Builder download URL; `none` models
the exception propagating out of `compare_version` on an unparseable
non-SNAPSHOT version. -/
def select_ext (version : String) : Option String :=
  if version = "SNAPSHOT" then some "tar.zst"
  else
    match compare_version "24.10.0-rc1" version with
    | some c => some (if c ≤ 0 then "tar.zst" else "tar.xz")
    | none => none

example : select_ext "SNAPSHOT" = some "tar.zst" := by decide
example : select_ext "24.10.0-rc1" = some "tar.zst" := by decide
example : select_ext "24.10.0" = some "tar.zst" := by decide
example : select_ext "23.05.3" = some "tar.xz" := by decide

/-! ## The idempotent downloader `urldownload` (imagebuilder.py lines 60-96)

State passing model.  A `LocalFile` is the destination file's observable
state: its bytes and its modification time.  A `Response` is what `urlopen`
hands the function: the two relevant headers and the byte stream the
successive `response.read(8192)` calls deliver.  Timestamps are modelled as
integers (the comparisons in the code are pure equalities, and parsed
`Last-Modified` values are whole seconds); `-1` is representable, which
matters because the code uses `-1` as the sentinel for an absent header.

One modelling note on the stream: `urlopen` responses go through
`http.client`, which never yields more than `Content-Length` bytes when
that header is present; `bodyRead` truncates the raw stream accordingly.
The `now` argument is the modification time the OS stamps on the freshly
written file, used when no `Last-Modified` is available. -/

/-- Observable state of the destination file. -/
structure LocalFile where
  content : List Nat
  mtime : Int
deriving DecidableEq, Repr

/-- The HTTP response: headers and raw body stream. -/
structure Response where
  contentLength : Option Nat
  lastModified : Option Int
  body : List Nat
deriving DecidableEq, Repr

/-- `size = int(content_length)` with the `-1` sentinel for a missing
`Content-Length` (lines 65-67). -/
def sizeVal (resp : Response) : Int :=
  match resp.contentLength with
  | some n => (n : Int)
  | none => -1

/-- `mtime = parsedate_to_datetime(last_modified).timestamp()` with the
`-1` sentinel for a missing `Last-Modified` (lines 69-71). -/
def mtimeVal (resp : Response) : Int :=
  match resp.lastModified with
  | some t => t
  | none => -1

/-- The bytes the read loop can obtain: `http.client` caps the body at
`Content-Length` when the header is present. -/
def bodyRead (resp : Response) : List Nat :=
  match resp.contentLength with
  | some n => resp.body.take n
  | none => resp.body

/-- Lines 73-75: `filename.exists()` and then
`stat.st_mtime == mtime and stat.st_size == size`. -/
def skipCheck (resp : Response) (fs : Option LocalFile) : Bool :=
  match fs with
  | some f => decide (f.mtime = mtimeVal resp) && decide ((f.content.length : Int) = sizeVal resp)
  | none => false

/-- How a call to `urldownload` ends: a normal return (with the transfer
skipped or performed) or the `ContentTooShortError` of lines 90-94 carrying
the expected and received byte counts of its message
`"download incomplete: got only {read} out of {size} bytes"`. -/
inductive DLOutcome where
  | ok (skipped : Bool)
  | incompleteError (expected : Int) (received : Nat)
deriving DecidableEq, Repr

/-- The file as the write loop plus `os.utime` leave it (lines 80-88): all
received bytes, stamped with the remote mtime when one was supplied
(sentinel `-1` means none was, so the OS-assigned time `now` remains). -/
def writtenFile (resp : Response) (now : Int) : LocalFile :=
  { content := bodyRead resp
    mtime := if mtimeVal resp ≠ -1 then mtimeVal resp else now }

/-- `urldownload` as a state transformer over the destination file: returns
the outcome and the file state after the call.  The write of the received
bytes and the `os.utime` stamp (lines 80-88) happen before the size check
(line 90), so the file is in its final state even when the error is
raised. -/
def urldownload (resp : Response) (now : Int) (fs : Option LocalFile) :
    DLOutcome × Option LocalFile :=
  if skipCheck resp fs then (DLOutcome.ok true, fs)
  else if 0 ≤ sizeVal resp ∧ ((bodyRead resp).length : Int) < sizeVal resp then
    (DLOutcome.incompleteError (sizeVal resp) (bodyRead resp).length,
      some (writtenFile resp now))
  else
    (DLOutcome.ok false, some (writtenFile resp now))

example :
    urldownload { contentLength := some 2, lastModified := some 50, body := [7, 8] } 77 none =
      (DLOutcome.ok false, some { content := [7, 8], mtime := 50 }) := by decide

example :
    urldownload { contentLength := some 2, lastModified := some 50, body := [7, 8] } 99
        (some { content := [7, 8], mtime := 50 }) =
      (DLOutcome.ok true, some { content := [7, 8], mtime := 50 }) := by decide

example :
    urldownload { contentLength := some 3, lastModified := some 50, body := [7] } 77 none =
      (DLOutcome.incompleteError 3 1, some { content := [7], mtime := 50 }) := by decide

example :
    urldownload { contentLength := some 3, lastModified := none, body := [1, 2, 3] } 100
        (some { content := [9, 9, 9], mtime := -1 }) =
      (DLOutcome.ok true, some { content := [9, 9, 9], mtime := -1 }) := by decide

/-! ## Order theory of Python string comparison

`strLt` is a strict linear order on `List Char`; these lemmas feed the
transitivity proof for `compare_version`. -/

theorem strLt_irrefl (x : List Char) : strLt x x = false := by
  induction x with
  | nil => rfl
  | cons a as ih => simp [strLt, ih]

theorem strLt_cons_iff {a b : Char} {as bs : List Char} :
    strLt (a :: as) (b :: bs) = true ↔ a < b ∨ (a = b ∧ strLt as bs = true) := by
  rcases lt_trichotomy a b with h | h | h
  · simp [strLt, h]
  · subst h
    simp [strLt, lt_irrefl]
  · simp only [strLt, if_neg (asymm h), if_pos h]
    constructor
    · intro hh
      exact absurd hh (by simp)
    · rintro (hh | ⟨hh, _⟩)
      · exact absurd hh (asymm h)
      · exact absurd hh (ne_of_gt h)

theorem strLt_trans : ∀ {x y z : List Char},
    strLt x y = true → strLt y z = true → strLt x z = true := by
  intro x
  induction x with
  | nil =>
      intro y z hxy hyz
      cases y with
      | nil => simp [strLt] at hxy
      | cons b bs =>
          cases z with
          | nil => simp [strLt] at hyz
          | cons c cs => simp [strLt]
  | cons a as ih =>
      intro y z hxy hyz
      cases y with
      | nil => simp [strLt] at hxy
      | cons b bs =>
          cases z with
          | nil => simp [strLt] at hyz
          | cons c cs =>
              rw [strLt_cons_iff] at hxy hyz ⊢
              rcases hxy with hab | ⟨hab, htail1⟩
              · rcases hyz with hbc | ⟨hbc, _⟩
                · exact Or.inl (lt_trans hab hbc)
                · exact Or.inl (hbc ▸ hab)
              · rcases hyz with hbc | ⟨hbc, htail2⟩
                · exact Or.inl (hab ▸ hbc)
                · exact Or.inr ⟨hab.trans hbc, ih htail1 htail2⟩

theorem strLt_total : ∀ {x y : List Char}, x ≠ y →
    strLt x y = true ∨ strLt y x = true := by
  intro x
  induction x with
  | nil =>
      intro y h
      cases y with
      | nil => exact absurd rfl h
      | cons b bs => exact Or.inl (by simp [strLt])
  | cons a as ih =>
      intro y h
      cases y with
      | nil => exact Or.inr (by simp [strLt])
      | cons b bs =>
          rcases lt_trichotomy a b with hab | hab | hab
          · exact Or.inl (strLt_cons_iff.2 (Or.inl hab))
          · subst hab
            have hne : as ≠ bs := by
              intro hh
              exact h (by rw [hh])
            rcases ih hne with h1 | h1
            · exact Or.inl (strLt_cons_iff.2 (Or.inr ⟨rfl, h1⟩))
            · exact Or.inr (strLt_cons_iff.2 (Or.inr ⟨rfl, h1⟩))
          · exact Or.inr (strLt_cons_iff.2 (Or.inl hab))

theorem strLt_asymm {x y : List Char} (h : strLt x y = true) : strLt y x = false := by
  cases hyx : strLt y x with
  | false => rfl
  | true =>
      have hxx := strLt_trans h hyx
      rw [strLt_irrefl] at hxx
      exact absurd hxx (by simp)

/-- When two tier strings differ, the tier's contribution to the result is
"not greater" exactly when the left string is Python-smaller. -/
theorem tier_ne_one_iff {x y : List Char} (hne : x ≠ y) :
    ((if strGt x y then (1 : Int) else -1) ≠ 1) ↔ strLt x y = true := by
  cases hgt : strGt x y with
  | true =>
      simp only [strGt] at hgt
      simp [hgt, strLt_asymm hgt]
  | false =>
      simp only [strGt] at hgt
      rcases strLt_total hne with h1 | h1
      · simp [hgt, h1]
      · rw [h1] at hgt
        exact absurd hgt (by simp)

/-- A candidate group is nonempty whenever present: the regex requires
`[1-9]\d*`. -/
def validOpt (c : Option (List Char)) : Prop := ∀ x, c = some x → x ≠ []

/-- Strict order on the candidate tier: a missing candidate (final
release) is newest. -/
def ltC : Option (List Char) → Option (List Char) → Prop
  | some _, none => True
  | some a, some b => strLt a b = true
  | none, _ => False

/-- Non-strict order on the candidate tier. -/
def leC (c1 c2 : Option (List Char)) : Prop := ltC c1 c2 ∨ c1 = c2

theorem ltC_trans : ∀ {c1 c2 c3 : Option (List Char)},
    ltC c1 c2 → ltC c2 c3 → ltC c1 c3 := by
  intro c1 c2 c3 h1 h2
  match c1, c2, c3 with
  | some a, some b, some c => exact strLt_trans h1 h2
  | some a, some b, none => trivial
  | some a, none, _ => exact absurd h2 (by cases c3 <;> simp [ltC])
  | none, _, _ => exact absurd h1 (by simp [ltC])

theorem leC_trans {c1 c2 c3 : Option (List Char)}
    (h1 : leC c1 c2) (h2 : leC c2 c3) : leC c1 c3 := by
  rcases h1 with h1 | rfl
  · rcases h2 with h2 | rfl
    · exact Or.inl (ltC_trans h1 h2)
    · exact Or.inl h1
  · exact h2

/-- The candidate tier's contribution is "not greater" exactly when the
left candidate is `ltC`-below the right one. -/
theorem candTier_ne_one_iff {c1 c2 : Option (List Char)}
    (hne : c1 ≠ c2) (h2 : validOpt c2) :
    ((if candGt c1 c2 then (1 : Int) else -1) ≠ 1) ↔ ltC c1 c2 := by
  match c1, c2 with
  | none, none => exact absurd rfl hne
  | none, some b => simp [candGt, ltC]
  | some a, none => simp [candGt, ltC]
  | some a, some b =>
      have hb : b ≠ [] := h2 b rfl
      have hab : a ≠ b := by
        intro h
        exact hne (by rw [h])
      have hcg : candGt (some a) (some b) = strGt a b := by
        simp [candGt, hb]
      rw [hcg]
      exact tier_ne_one_iff hab

/-- One step of a lexicographic combination: a transitive strict order on
the current tier, with any transitive continuation below it. -/
theorem lexStep {α : Type} (lt : α → α → Prop)
    (htr : ∀ {x y z : α}, lt x y → lt y z → lt x z)
    {P Q R : Prop} (hPQR : P → Q → R) {a b c : α} :
    (lt a b ∨ (a = b ∧ P)) → (lt b c ∨ (b = c ∧ Q)) → (lt a c ∨ (a = c ∧ R)) := by
  rintro (h | ⟨rfl, hp⟩) (h2 | ⟨rfl, hq⟩)
  · exact Or.inl (htr h h2)
  · exact Or.inl h
  · exact Or.inl h2
  · exact Or.inr ⟨rfl, hPQR hp hq⟩

/-- "Not newer": the lexicographic order on the four captured groups that
characterizes `compareFields m1 m2 ≠ 1`. -/
def VLe (m1 m2 : VerMatch) : Prop :=
  strLt m1.year m2.year = true ∨ (m1.year = m2.year ∧
    (strLt m1.month m2.month = true ∨ (m1.month = m2.month ∧
      (strLt m1.release m2.release = true ∨ (m1.release = m2.release ∧
        leC m1.candidate m2.candidate)))))

theorem VLe_trans {m1 m2 m3 : VerMatch} (h1 : VLe m1 m2) (h2 : VLe m2 m3) :
    VLe m1 m3 := by
  unfold VLe at h1 h2 ⊢
  exact lexStep (fun x y => strLt x y = true) strLt_trans
    (lexStep (fun x y => strLt x y = true) strLt_trans
      (lexStep (fun x y => strLt x y = true) strLt_trans leC_trans)) h1 h2

/-- Collapsing an already-settled tier of the lexicographic order. -/
theorem orEqHelper {x y : List Char} {X : Prop} (hE : x = y) :
    (strLt x y = true ∨ (x = y ∧ X)) ↔ X := by
  subst hE
  rw [strLt_irrefl]
  constructor
  · rintro (h | ⟨_, hx⟩)
    · exact absurd h (by simp)
    · exact hx
  · intro hx
    exact Or.inr ⟨rfl, hx⟩

theorem compareFields_ne_one_iff {m1 m2 : VerMatch} (h2 : validOpt m2.candidate) :
    compareFields m1 m2 ≠ 1 ↔ VLe m1 m2 := by
  unfold compareFields VLe
  by_cases hy : m1.year = m2.year
  · rw [if_neg (not_not_intro hy), orEqHelper hy]
    by_cases hm : m1.month = m2.month
    · rw [if_neg (not_not_intro hm), orEqHelper hm]
      by_cases hr : m1.release = m2.release
      · rw [if_neg (not_not_intro hr), orEqHelper hr]
        by_cases hc : m1.candidate = m2.candidate
        · rw [if_neg (not_not_intro hc)]
          exact iff_of_true (by decide) (Or.inr hc)
        · rw [if_pos hc, candTier_ne_one_iff hc h2]
          unfold leC
          simp [hc]
      · rw [if_pos hr, tier_ne_one_iff hr]
        simp [hr]
    · rw [if_pos hm, tier_ne_one_iff hm]
      simp [hm]
  · rw [if_pos hy, tier_ne_one_iff hy]
    simp [hy]

theorem compareFields_refl (m : VerMatch) : compareFields m m = 0 := by
  simp [compareFields]

/-! ## Parse invariants: candidate groups are nonempty -/

theorem matchCandidate_ne_nil {s x : List Char} (h : matchCandidate s = some x) :
    x ≠ [] := by
  unfold matchCandidate at h
  split at h
  · split at h
    · cases h
      simp
    · exact absurd h (by simp)
  · exact absurd h (by simp)

theorem matchAt_valid {s : List Char} {m : VerMatch} (h : matchAt s = some m) :
    validOpt m.candidate := by
  unfold matchAt at h
  split at h
  · split at h
    · split at h
      · cases h
        intro x hx
        exact matchCandidate_ne_nil hx
      · exact absurd h (by simp)
    · exact absurd h (by simp)
  · exact absurd h (by simp)

theorem searchVer_valid : ∀ {s : List Char} {m : VerMatch},
    searchVer s = some m → validOpt m.candidate := by
  intro s
  induction s with
  | nil =>
      intro m h
      exact absurd h (by simp [searchVer])
  | cons c rest ih =>
      intro m h
      unfold searchVer at h
      split at h
      · cases h
        next heq => exact matchAt_valid heq
      · exact ih h

theorem compareFields_trans {m1 m2 m3 : VerMatch}
    (h2 : validOpt m2.candidate) (h3 : validOpt m3.candidate)
    (a1 : compareFields m1 m2 ≠ 1) (a2 : compareFields m2 m3 ≠ 1) :
    compareFields m1 m3 ≠ 1 := by
  rw [compareFields_ne_one_iff h2] at a1
  rw [compareFields_ne_one_iff h3] at a2
  rw [compareFields_ne_one_iff h3]
  exact VLe_trans a1 a2

/-! ## Claim theorems about `compare_version` -/

/-- C1: the claim says `compare_version` orders differing release or
candidate numbers numerically, so that 10 beats 9.  It does not: the code
compares the captured digit strings with Python string comparison, so
release "10" sorts before "9" and `compare_version("24.10.10", "24.10.9")`
returns -1 where numeric comparison would return 1.  This theorem records
the code's actual value at that failing input. -/
theorem compare_version_release_ten_is_lexical :
    compare_version "24.10.10" "24.10.9" = some (-1) := by decide

/-- C6: the two concrete orderings of the claim hold (a final release
beats its own release candidate, and rc2 beats rc1), but the general
clause "between two candidate versions the one with the higher candidate
number is greater" fails: candidate strings are compared lexically, so
`compare_version("24.10.0-rc10", "24.10.0-rc9")` returns -1 although
candidate 10 is the higher number. -/
theorem compare_version_candidate_ordering :
    compare_version "24.10.0" "24.10.0-rc1" = some 1 ∧
    compare_version "24.10.0-rc2" "24.10.0-rc1" = some 1 ∧
    compare_version "24.10.0-rc10" "24.10.0-rc9" = some (-1) := by decide

/-- C7: for every triple of version strings in which the pattern occurs,
the ordering produced by `compare_version` is transitive: if
`compare(a,b)` is not greater and `compare(b,c)` is not greater then
`compare(a,c)` is not greater. -/
theorem compare_version_transitive (a b c : String)
    (ha : (searchVer a.data).isSome = true) (hb : (searchVer b.data).isSome = true)
    (hc : (searchVer c.data).isSome = true)
    (h1 : compare_version a b ≠ some 1) (h2 : compare_version b c ≠ some 1) :
    compare_version a c ≠ some 1 := by
  cases hma : searchVer a.data with
  | none =>
      rw [hma] at ha
      exact absurd ha (by simp)
  | some ma =>
      cases hmb : searchVer b.data with
      | none =>
          rw [hmb] at hb
          exact absurd hb (by simp)
      | some mb =>
          cases hmc : searchVer c.data with
          | none =>
              rw [hmc] at hc
              exact absurd hc (by simp)
          | some mc =>
              unfold compare_version at h1 h2 ⊢
              rw [hma, hmb] at h1
              rw [hmb, hmc] at h2
              rw [hma, hmc]
              have hvb := searchVer_valid hmb
              have hvc := searchVer_valid hmc
              have t := compareFields_trans hvb hvc
                (fun hh => h1 (congrArg some hh)) (fun hh => h2 (congrArg some hh))
              intro hcontra
              exact t (Option.some.inj hcontra)

/-- Witness for C7 at the concrete triple 23.05.3, 24.10.0-rc1, 24.10.0. -/
theorem compare_version_transitive_witness :
    compare_version "23.05.3" "24.10.0" ≠ some 1 :=
  compare_version_transitive "23.05.3" "24.10.0-rc1" "24.10.0"
    (by decide) (by decide) (by decide) (by decide) (by decide)

/-- C8: on an argument in which the version pattern does not occur,
`compare_version` does not return an ordering result: the call ends in the
exception branch (the Python lets `match.group` raise on the failed
search), modelled by `none`, whichever argument position the malformed
string occupies. -/
theorem compare_version_unparseable (ver1 ver2 : String)
    (h : searchVer ver1.data = none) :
    compare_version ver1 ver2 = none ∧ compare_version ver2 ver1 = none := by
  constructor
  · unfold compare_version
    rw [h]
  · unfold compare_version
    rw [h]
    cases searchVer ver2.data <;> rfl

/-- Witness for C8 at a concrete malformed first argument. -/
theorem compare_version_unparseable_witness :
    compare_version "no version here" "24.10.0" = none ∧
    compare_version "24.10.0" "no version here" = none :=
  compare_version_unparseable "no version here" "24.10.0" (by decide)

/-- C10: `compare_version` locates the pattern anywhere in its argument
rather than requiring a whole-string match: when the search in
`p ++ v ++ s` produces the same captured groups as the search in the valid
version `v` itself (in particular when the pattern's first occurrence in
`p ++ v ++ s` is the embedded `v`), the comparison returns equal. -/
theorem compare_version_embedded (p v s : String) (m : VerMatch)
    (h1 : searchVer (p ++ v ++ s).data = some m)
    (h2 : searchVer v.data = some m) :
    compare_version (p ++ v ++ s) v = some 0 := by
  unfold compare_version
  rw [h1, h2]
  simp [compareFields_refl]

/-- Witness for C10: "24.10.0" surrounded by an archive-name prefix and
suffix compares equal to the bare version. -/
theorem compare_version_embedded_witness :
    compare_version ("openwrt-" ++ "24.10.0" ++ ".bin") "24.10.0" = some 0 :=
  compare_version_embedded "openwrt-" "24.10.0" ".bin"
    { year := ['2', '4'], month := ['1', '0'], release := ['0'], candidate := none }
    (by decide) (by decide)

/-- C5: the archive extension is `tar.zst` exactly for the SNAPSHOT
sentinel (which short-circuits past the comparator, hence is always
treated as newest) and for versions the comparator places at or above
24.10.0-rc1; every version the comparator places strictly below the
threshold gets `tar.xz`.  Concretely SNAPSHOT and 24.10.0-rc1 select
tar.zst and 23.05.3 selects tar.xz. -/
theorem select_ext_spec :
    (∀ v, select_ext v = some "tar.zst" ↔
      (v = "SNAPSHOT" ∨ ∃ c, compare_version "24.10.0-rc1" v = some c ∧ c ≤ 0)) ∧
    (∀ v c, v ≠ "SNAPSHOT" → compare_version "24.10.0-rc1" v = some c → 0 < c →
      select_ext v = some "tar.xz") ∧
    select_ext "SNAPSHOT" = some "tar.zst" ∧
    select_ext "24.10.0-rc1" = some "tar.zst" ∧
    select_ext "23.05.3" = some "tar.xz" := by
  refine ⟨?_, ?_, by decide, by decide, by decide⟩
  · intro v
    unfold select_ext
    by_cases hv : v = "SNAPSHOT"
    · simp [hv]
    · rw [if_neg hv]
      cases hcv : compare_version "24.10.0-rc1" v with
      | none =>
          refine iff_of_false (by simp) ?_
          rintro (h | ⟨c, hc, _⟩)
          · exact hv h
          · exact absurd hc (by simp)
      | some c =>
          show some (if c ≤ 0 then "tar.zst" else "tar.xz") = some "tar.zst" ↔
            v = "SNAPSHOT" ∨ ∃ c2, some c = some c2 ∧ c2 ≤ 0
          by_cases hc : c ≤ 0
          · rw [if_pos hc]
            exact iff_of_true rfl (Or.inr ⟨c, rfl, hc⟩)
          · rw [if_neg hc]
            refine iff_of_false ?_ ?_
            · intro h
              exact absurd (Option.some.inj h) (by decide)
            · rintro (h | ⟨c2, hc2, hle⟩)
              · exact hv h
              · rw [Option.some.inj hc2] at hc
                exact hc hle
  · intro v c hv hcv hpos
    unfold select_ext
    rw [if_neg hv, hcv]
    show some (if c ≤ 0 then "tar.zst" else "tar.xz") = some "tar.xz"
    rw [if_neg (not_le.mpr hpos)]

/-- Witness for C5's strictly-below branch at the concrete version
19.07.10. -/
theorem select_ext_spec_witness : select_ext "19.07.10" = some "tar.xz" :=
  select_ext_spec.2.1 "19.07.10" 1 (by decide) (by decide) (by decide)

/-! ## Claim theorems about `urldownload` -/

/-- The skip test of lines 73-75, spelled out. -/
theorem skipCheck_iff {resp : Response} {fs : Option LocalFile} :
    skipCheck resp fs = true ↔
      ∃ f, fs = some f ∧ f.mtime = mtimeVal resp ∧
        (f.content.length : Int) = sizeVal resp := by
  cases fs with
  | none => simp [skipCheck]
  | some f => simp [skipCheck]

/-- C2 counterexample: the claim says a response missing either header
forces the transfer, but with `Last-Modified` absent the code compares the
file's mtime against the sentinel `-1`, so an existing file whose mtime is
exactly `-1` and whose size matches `Content-Length` is skipped. -/
theorem urldownload_missing_header_counterexample :
    (Response.mk (some 3) none [1, 2, 3]).lastModified = none ∧
    urldownload (Response.mk (some 3) none [1, 2, 3]) 100
        (some (LocalFile.mk [9, 9, 9] (-1))) =
      (DLOutcome.ok true, some (LocalFile.mk [9, 9, 9] (-1))) := by decide

/-- C2 amended: the transfer is skipped exactly when the existing file's
mtime and size equal the header values with `-1` standing in for an absent
header; a skip leaves the file untouched; an absent `Content-Length`
always forces the transfer (file sizes are never `-1`); and a second call
against an unchanged remote that supplies both headers, with a
`Last-Modified` timestamp other than the sentinel `-1` and a body of the
declared length, transfers nothing and rewrites no file contents. -/
theorem urldownload_skip_amended :
    (∀ resp now fs, (urldownload resp now fs).1 = DLOutcome.ok true ↔
      ∃ f, fs = some f ∧ f.mtime = mtimeVal resp ∧
        (f.content.length : Int) = sizeVal resp) ∧
    (∀ resp now fs, (urldownload resp now fs).1 = DLOutcome.ok true →
      (urldownload resp now fs).2 = fs) ∧
    (∀ resp now fs, resp.contentLength = none →
      (urldownload resp now fs).1 ≠ DLOutcome.ok true) ∧
    (∀ (resp : Response) (n : Nat) (t now now2 : Int) (fs : Option LocalFile),
      resp.contentLength = some n → resp.lastModified = some t → t ≠ -1 →
      resp.body.length = n →
      urldownload resp now2 (urldownload resp now fs).2 =
        (DLOutcome.ok true, (urldownload resp now fs).2)) := by
  refine ⟨?_, ?_, ?_, ?_⟩
  · intro resp now fs
    by_cases hsk : skipCheck resp fs = true
    · unfold urldownload
      rw [if_pos hsk]
      exact iff_of_true rfl (skipCheck_iff.mp hsk)
    · unfold urldownload
      rw [if_neg hsk]
      refine iff_of_false ?_ (fun hex => hsk (skipCheck_iff.mpr hex))
      intro h
      split at h
      · exact absurd h (by simp)
      · exact absurd h (by simp)
  · intro resp now fs h
    unfold urldownload at h ⊢
    by_cases hsk : skipCheck resp fs = true
    · rw [if_pos hsk]
    · rw [if_neg hsk] at h
      split at h
      · exact absurd h (by simp)
      · exact absurd h (by simp)
  · intro resp now fs hcl
    have hsk : skipCheck resp fs = false := by
      cases fs with
      | none => rfl
      | some f =>
          simp only [skipCheck, Bool.and_eq_false_iff, decide_eq_false_iff_not]
          right
          have hsz : sizeVal resp = -1 := by simp [sizeVal, hcl]
          rw [hsz]
          omega
    unfold urldownload
    rw [if_neg (by simp [hsk])]
    intro h
    split at h
    · exact absurd h (by simp)
    · exact absurd h (by simp)
  · intro resp n t now now2 fs hcl hlm ht hlen
    by_cases hsk : skipCheck resp fs = true
    · have h1 : urldownload resp now fs = (DLOutcome.ok true, fs) := by
        unfold urldownload
        rw [if_pos hsk]
      rw [h1]
      unfold urldownload
      rw [if_pos hsk]
    · have hlen2 : (bodyRead resp).length = n := by
        simp [bodyRead, hcl, hlen]
      have hsz : sizeVal resp = (n : Int) := by simp [sizeVal, hcl]
      have hmt : mtimeVal resp = t := by simp [mtimeVal, hlm]
      have h1 : urldownload resp now fs =
          (DLOutcome.ok false, some (writtenFile resp now)) := by
        unfold urldownload
        rw [if_neg hsk]
        have hcond : ¬(0 ≤ sizeVal resp ∧ ((bodyRead resp).length : Int) < sizeVal resp) := by
          rw [hsz, hlen2]
          omega
        rw [if_neg hcond]
      have hskip2 : skipCheck resp (some (writtenFile resp now)) = true := by
        simp [skipCheck, writtenFile, hmt, ht, hsz, hlen2]
      rw [h1]
      show urldownload resp now2 (some (writtenFile resp now)) =
        (DLOutcome.ok true, some (writtenFile resp now))
      unfold urldownload
      rw [if_pos hskip2]

/-- Witness for C2's amended idempotence clause at a concrete remote. -/
theorem urldownload_skip_amended_witness :
    urldownload (Response.mk (some 2) (some 50) [7, 8]) 99
        (urldownload (Response.mk (some 2) (some 50) [7, 8]) 77 none).2 =
      (DLOutcome.ok true, (urldownload (Response.mk (some 2) (some 50) [7, 8]) 77 none).2) :=
  urldownload_skip_amended.2.2.2 (Response.mk (some 2) (some 50) [7, 8]) 2 50 77 99 none
    rfl rfl (by decide) rfl

/-- C3: when a `Content-Length` is declared, the body yields strictly
fewer bytes, and the skip path is not taken, `urldownload` ends in the
"download incomplete" error carrying the expected and received byte
counts, and does not return normally. -/
theorem urldownload_incomplete (resp : Response) (now : Int) (fs : Option LocalFile)
    (n : Nat) (hcl : resp.contentLength = some n) (hshort : resp.body.length < n)
    (hnoskip : skipCheck resp fs = false) :
    (urldownload resp now fs).1 =
      DLOutcome.incompleteError (n : Int) resp.body.length ∧
    ∀ b, (urldownload resp now fs).1 ≠ DLOutcome.ok b := by
  have hbr : bodyRead resp = resp.body := by
    simp only [bodyRead, hcl]
    exact List.take_of_length_le (le_of_lt hshort)
  have hsz : sizeVal resp = (n : Int) := by simp [sizeVal, hcl]
  have hcond : 0 ≤ sizeVal resp ∧ ((bodyRead resp).length : Int) < sizeVal resp := by
    rw [hsz, hbr]
    constructor
    · omega
    · exact_mod_cast hshort
  have h1 : urldownload resp now fs =
      (DLOutcome.incompleteError (sizeVal resp) (bodyRead resp).length,
        some (writtenFile resp now)) := by
    unfold urldownload
    rw [if_neg (by simp [hnoskip]), if_pos hcond]
  rw [h1]
  constructor
  · simp [hsz, hbr]
  · intro b h
    exact absurd h (by simp)

/-- Witness for C3: 500 bytes arrive of an advertised 1000. -/
theorem urldownload_incomplete_witness :
    (urldownload (Response.mk (some 1000) none (List.replicate 500 0)) 0 none).1 =
      DLOutcome.incompleteError 1000 500 := by
  have hshort : (Response.mk (some 1000) none (List.replicate 500 0)).body.length < 1000 := by
    show (List.replicate 500 0).length < 1000
    rw [List.length_replicate]
    omega
  have h := (urldownload_incomplete (Response.mk (some 1000) none (List.replicate 500 0))
    0 none 1000 rfl hshort rfl).1
  have hlen : (Response.mk (some 1000) none (List.replicate 500 0)).body.length = 500 := by
    show (List.replicate 500 0).length = 500
    rw [List.length_replicate]
  rw [hlen] at h
  exact h

/-- C4 counterexample: the claim says a successful transfer leaves the
file's mtime equal to the `Last-Modified` timestamp whenever that header
is present, but a header parsing to exactly `-1` collides with the
missing-header sentinel: the `os.utime` call is skipped and the file keeps
the OS-assigned time. -/
theorem urldownload_invariant_counterexample :
    (Response.mk (some 1) (some (-1)) [5]).lastModified = some (-1) ∧
    urldownload (Response.mk (some 1) (some (-1)) [5]) 42 none =
      (DLOutcome.ok false, some (LocalFile.mk [5] 42)) ∧
    (42 : Int) ≠ -1 := by decide

/-- C4 amended: after a transfer that returns successfully, the file's
size equals the declared `Content-Length` when present (the HTTP layer
yields at most `Content-Length` bytes, and the shortfall check rules out
fewer), and its mtime equals the `Last-Modified` timestamp when present,
provided that timestamp is not the sentinel `-1`. -/
theorem urldownload_success_invariant (resp : Response) (now : Int)
    (fs : Option LocalFile) (f : LocalFile)
    (h : urldownload resp now fs = (DLOutcome.ok false, some f)) :
    (∀ n, resp.contentLength = some n → f.content.length = n) ∧
    (∀ t, resp.lastModified = some t → t ≠ -1 → f.mtime = t) := by
  unfold urldownload at h
  by_cases hsk : skipCheck resp fs = true
  · rw [if_pos hsk] at h
    exact absurd (congrArg Prod.fst h) (by simp)
  · rw [if_neg hsk] at h
    by_cases hcond : 0 ≤ sizeVal resp ∧ ((bodyRead resp).length : Int) < sizeVal resp
    · rw [if_pos hcond] at h
      exact absurd (congrArg Prod.fst h) (by simp)
    · rw [if_neg hcond] at h
      have hf : f = writtenFile resp now := by
        have h2 := congrArg Prod.snd h
        simp at h2
        exact h2.symm
      subst hf
      constructor
      · intro n hcl
        have hsz : sizeVal resp = (n : Int) := by simp [sizeVal, hcl]
        rw [hsz] at hcond
        have hle : n ≤ (bodyRead resp).length := by omega
        have hmin : (bodyRead resp).length = min n resp.body.length := by
          simp [bodyRead, hcl]
        show (bodyRead resp).length = n
        omega
      · intro t hlm ht
        have hmt : mtimeVal resp = t := by simp [mtimeVal, hlm]
        show (if mtimeVal resp ≠ -1 then mtimeVal resp else now) = t
        rw [hmt, if_pos ht]

/-- Witness for C4's amended invariant at a concrete complete download. -/
theorem urldownload_success_invariant_witness :
    (LocalFile.mk [4, 5] 9).content.length = 2 ∧ (LocalFile.mk [4, 5] 9).mtime = 9 :=
  ⟨(urldownload_success_invariant (Response.mk (some 2) (some 9) [4, 5]) 0 none
      (LocalFile.mk [4, 5] 9) (by decide)).1 2 rfl,
   (urldownload_success_invariant (Response.mk (some 2) (some 9) [4, 5]) 0 none
      (LocalFile.mk [4, 5] 9) (by decide)).2 9 rfl (by decide)⟩

/-- C9 counterexample: when the incomplete-download error is raised after
a response whose `Last-Modified` parses to exactly `-1`, the partial
file's mtime is the OS-assigned time, not the remote timestamp: the
sentinel made the code skip the `os.utime` call. -/
theorem urldownload_error_state_counterexample :
    (Response.mk (some 2) (some (-1)) [7]).lastModified = some (-1) ∧
    urldownload (Response.mk (some 2) (some (-1)) [7]) 42 none =
      (DLOutcome.incompleteError 2 1, some (LocalFile.mk [7] 42)) ∧
    (42 : Int) ≠ -1 := by decide

/-- C9 amended: when `urldownload` raises the incomplete-download error,
the received bytes have already been written to the destination file and,
if a `Last-Modified` other than the sentinel `-1` was present, the file's
mtime has been set to it; the file is strictly shorter than the declared
`Content-Length`, so a subsequent invocation cannot take the skip path. -/
theorem urldownload_error_state (resp : Response) (now now2 : Int)
    (fs : Option LocalFile) (e : Int) (r : Nat)
    (h : (urldownload resp now fs).1 = DLOutcome.incompleteError e r) :
    ∃ f, (urldownload resp now fs).2 = some f ∧
      f.content = bodyRead resp ∧
      (∀ t, resp.lastModified = some t → t ≠ -1 → f.mtime = t) ∧
      (∃ n, resp.contentLength = some n ∧ f.content.length < n) ∧
      (urldownload resp now2 (some f)).1 ≠ DLOutcome.ok true := by
  unfold urldownload at h
  by_cases hsk : skipCheck resp fs = true
  · rw [if_pos hsk] at h
    exact absurd h (by simp)
  · rw [if_neg hsk] at h
    by_cases hcond : 0 ≤ sizeVal resp ∧ ((bodyRead resp).length : Int) < sizeVal resp
    · refine ⟨writtenFile resp now, ?_, rfl, ?_, ?_, ?_⟩
      · unfold urldownload
        rw [if_neg hsk, if_pos hcond]
      · intro t hlm ht
        have hmt : mtimeVal resp = t := by simp [mtimeVal, hlm]
        show (if mtimeVal resp ≠ -1 then mtimeVal resp else now) = t
        rw [hmt, if_pos ht]
      · cases hcl : resp.contentLength with
        | none =>
            have hsz : sizeVal resp = -1 := by simp [sizeVal, hcl]
            rw [hsz] at hcond
            omega
        | some n =>
            have hsz : sizeVal resp = (n : Int) := by simp [sizeVal, hcl]
            rw [hsz] at hcond
            refine ⟨n, rfl, ?_⟩
            show (bodyRead resp).length < n
            omega
      · have hne : ((writtenFile resp now).content.length : Int) ≠ sizeVal resp := by
          show ((bodyRead resp).length : Int) ≠ sizeVal resp
          exact ne_of_lt hcond.2
        have hsk2 : skipCheck resp (some (writtenFile resp now)) = false := by
          simp only [skipCheck, Bool.and_eq_false_iff, decide_eq_false_iff_not]
          exact Or.inr hne
        intro hcontra
        unfold urldownload at hcontra
        rw [if_neg (by simp [hsk2])] at hcontra
        split at hcontra
        · exact absurd hcontra (by simp)
        · exact absurd hcontra (by simp)
    · rw [if_neg hcond] at h
      exact absurd h (by simp)

/-- Witness for C9's amended statement at a concrete short download. -/
theorem urldownload_error_state_witness :
    ∃ f, (urldownload (Response.mk (some 3) (some 7) [1]) 5 none).2 = some f ∧
      f.content = bodyRead (Response.mk (some 3) (some 7) [1]) ∧
      (∀ t, (Response.mk (some 3) (some 7) [1]).lastModified = some t → t ≠ -1 →
        f.mtime = t) ∧
      (∃ n, (Response.mk (some 3) (some 7) [1]).contentLength = some n ∧
        f.content.length < n) ∧
      (urldownload (Response.mk (some 3) (some 7) [1]) 6 (some f)).1 ≠ DLOutcome.ok true :=
  urldownload_error_state (Response.mk (some 3) (some 7) [1]) 5 6 none 3 1 (by decide)

end OpenwrtImagebuilder
